import Mathlib

/-!
Verification of the control-flow and persistence contract of
src/x_media_scraper.py, as a shallow embedding in Lean.

The external collaborators (snscrape as the Post Source, requests and
yt_dlp as media fetchers, the filesystem) are modelled as parameters:
an environment of oracle functions for the fetchers, a list of paths
for the directory contents on disk, and an explicit list of posts
(each paired with the fate of its processing: normal completion, an
unexpected exception, or a user interrupt raised inside the per-post
body) for the lazy post iterator.  Everything the program itself
computes is translated directly from the Python source.
-/

namespace Scraper

/-- Characters forbidden in filenames, the character class of the regex
on line 62 of the source: backslash, slash, colon, star, question mark,
double quote, less-than, greater-than, pipe. -/
def forbiddenChar (c : Char) : Bool :=
  c == '\\' || c == '/' || c == ':' || c == '*' || c == '?' || c == '"' ||
  c == '<' || c == '>' || c == '|'

/-- Replacement of every run of one or more forbidden characters by a
single underscore, the effect of re.sub on line 62.  The boolean flag
records whether the previous character belonged to a forbidden run. -/
def replRuns : Bool → List Char → List Char
  | _, [] => []
  | inRun, c :: cs =>
    if forbiddenChar c then
      (if inRun then replRuns true cs else '_' :: replRuns true cs)
    else
      c :: replRuns false cs

/-- safe_filename (source lines 61 to 65): replace runs of forbidden
characters by one underscore, then truncate to maxlen characters.  The
source default for maxlen is 150. -/
def safe_filename (name : String) (maxlen : Nat) : String :=
  String.mk ((replRuns false name.data).take maxlen)

lemma replRuns_mem : ∀ (l : List Char) (b : Bool), ∀ c ∈ replRuns b l, forbiddenChar c = false := by
  intro l
  induction l with
  | nil => intro b c hc; simp [replRuns] at hc
  | cons x xs ih =>
    intro b c hc
    by_cases hx : forbiddenChar x
    · cases b with
      | true =>
        simp [replRuns, hx] at hc
        exact ih true c hc
      | false =>
        simp [replRuns, hx] at hc
        rcases hc with rfl | hc
        · decide
        · exact ih true c hc
    · simp [replRuns, hx] at hc
      rcases hc with rfl | hc
      · exact Bool.eq_false_iff.mpr hx
      · exact ih false c hc

lemma replRuns_safe_id : ∀ (l : List Char), (∀ c ∈ l, forbiddenChar c = false) → replRuns false l = l := by
  intro l
  induction l with
  | nil => intro _; rfl
  | cons x xs ih =>
    intro h
    have hx : forbiddenChar x = false := h x (List.mem_cons_self x xs)
    simp only [replRuns, hx, Bool.false_eq_true, if_false]
    exact congrArg (x :: ·) (ih fun c hc => h c (List.mem_cons_of_mem x hc))

lemma replRuns_skip_run : ∀ (r rest : List Char), (∀ c ∈ r, forbiddenChar c = true) →
    replRuns true (r ++ rest) = replRuns true rest := by
  intro r
  induction r with
  | nil => intro rest _; rfl
  | cons x xs ih =>
    intro rest h
    have hx : forbiddenChar x = true := h x (List.mem_cons_self x xs)
    simp only [List.cons_append, replRuns, hx, if_true]
    exact ih rest fun c hc => h c (List.mem_cons_of_mem x hc)

lemma replRuns_true_eq_false : ∀ (rest : List Char),
    (rest.head?.all fun c => !forbiddenChar c) = true →
    replRuns true rest = replRuns false rest := by
  intro rest h
  cases rest with
  | nil => rfl
  | cons c cs =>
    simp only [List.head?, Option.all] at h
    have hc : forbiddenChar c = false := by
      cases hfc : forbiddenChar c
      · rfl
      · rw [hfc] at h; simp at h
    simp [replRuns, hc]

lemma replRuns_collapse (r rest : List Char) (hne : r ≠ [])
    (hall : ∀ c ∈ r, forbiddenChar c = true)
    (hrest : (rest.head?.all fun c => !forbiddenChar c) = true) :
    replRuns false (r ++ rest) = '_' :: replRuns false rest := by
  cases r with
  | nil => exact absurd rfl hne
  | cons x xs =>
    have hx : forbiddenChar x = true := hall x (List.mem_cons_self x xs)
    have h1 : replRuns false ((x :: xs) ++ rest) = '_' :: replRuns true (xs ++ rest) := by
      simp [replRuns, hx]
    rw [h1, replRuns_skip_run xs rest fun c hc => hall c (List.mem_cons_of_mem x hc),
      replRuns_true_eq_false rest hrest]

/-- C5: the filename sanitizer is total: for every input string and
maximum length, the result contains no forbidden character and has
length at most the maximum; every maximal run of forbidden characters
collapses to a single underscore (safe characters pass through, a
leading run of forbidden characters followed by a safe character or
the end becomes one underscore); and on an input that is already free
of forbidden characters and no longer than the maximum the sanitizer
is the identity. -/
theorem C5_sanitizer_total (s : String) (maxlen : Nat) :
    (∀ c ∈ (safe_filename s maxlen).data, forbiddenChar c = false) ∧
    (safe_filename s maxlen).length ≤ maxlen ∧
    ((∀ c ∈ s.data, forbiddenChar c = false) → s.length ≤ maxlen →
      safe_filename s maxlen = s) ∧
    (∀ (c : Char) (l : List Char), forbiddenChar c = false →
      replRuns false (c :: l) = c :: replRuns false l) ∧
    (∀ (r rest : List Char), r ≠ [] → (∀ c ∈ r, forbiddenChar c = true) →
      (rest.head?.all fun c => !forbiddenChar c) = true →
      replRuns false (r ++ rest) = '_' :: replRuns false rest) := by
  refine ⟨?_, ?_, ?_, ?_, ?_⟩
  · intro c hc
    exact replRuns_mem s.data false c (List.take_subset maxlen _ hc)
  · show ((replRuns false s.data).take maxlen).length ≤ maxlen
    simp [List.length_take]
  · intro h1 h2
    obtain ⟨data⟩ := s
    show String.mk ((replRuns false data).take maxlen) = String.mk data
    rw [replRuns_safe_id data h1, List.take_of_length_le h2]
  · intro c l h
    simp [replRuns, h]
  · exact fun r rest => replRuns_collapse r rest

/-- Witness for C5: the sanitizer is the identity on a safe short
string, and a maximal run of forbidden characters collapses to one
underscore. -/
theorem C5_sanitizer_total_witness :
    safe_filename "report.txt" 150 = "report.txt" ∧
    replRuns false (['?', '\\'] ++ ['a']) = '_' :: replRuns false ['a'] :=
  ⟨(C5_sanitizer_total "report.txt" 150).2.2.1 (by decide) (by decide),
   (C5_sanitizer_total "x" 1).2.2.2.2 ['?', '\\'] ['a'] (by decide) (by decide) (by decide)⟩

/-- A media reference attached to a post, as produced by the Post
Source.  The source dispatches on the runtime class name (Photo,
Video, Gif, lines 170 and 190); a Photo carries the optional fullUrl
and url attributes read on line 172. -/
inductive MediaRef
  | photo (fullUrl : Option String) (url : Option String)
  | video
  | gif
  deriving DecidableEq

/-- A post yielded by the Post Source.  Optional fields model Python
attributes that may be missing or None: getattr with a default is
applied on lines 156 to 161 and 166. -/
structure Tweet where
  id : Int
  dateIso : String
  rawContent : Option String
  replyCount : Option Int
  retweetCount : Option Int
  likeCount : Option Int
  quoteCount : Option Int
  viewCount : Option Int
  media : List MediaRef
  deriving DecidableEq

/-- The MediaItem dataclass (lines 42 to 46). -/
structure MediaItem where
  type : String
  url : String
  local_path : Option String
  deriving DecidableEq

/-- The TweetRecord dataclass (lines 48 to 59). -/
structure TweetRecord where
  id : Int
  url : String
  date : String
  content : String
  replyCount : Int
  retweetCount : Int
  likeCount : Int
  quoteCount : Int
  viewCount : Option Int
  media : List MediaItem
  deriving DecidableEq

/-- Recursion of iter_user_tweets (lines 112 to 118): count starts at
zero; before each yield, if the limit is truthy (nonzero) and the
count has reached it, stop; otherwise increment the count and yield. -/
def iterAux (limit : Int) : List α → Int → List α
  | [], _ => []
  | t :: ts, count =>
    if limit ≠ 0 ∧ count ≥ limit then []
    else t :: iterAux limit ts (count + 1)

/-- iter_user_tweets (lines 105 to 118), abstracted over the opaque
stream of items the snscrape query produces. -/
def iter_user_tweets (items : List α) (limit : Int) : List α :=
  iterAux limit items 0

lemma iterAux_take : ∀ (l : List α) (limit count : Int), limit ≠ 0 → 0 ≤ count → count ≤ limit →
    iterAux limit l count = l.take (limit - count).toNat := by
  intro l
  induction l with
  | nil => intro limit count _ _ _; simp [iterAux]
  | cons x xs ih =>
    intro limit count h0 hc hcl
    by_cases hge : count ≥ limit
    · have hEq : count = limit := le_antisymm hcl hge
      have : (limit - count).toNat = 0 := by omega
      simp [iterAux, h0, hge, this]
    · have hlt : count < limit := lt_of_le_of_ne hcl (fun h => hge (le_of_eq h.symm))
      have hcond : ¬(limit ≠ 0 ∧ count ≥ limit) := fun h => hge h.2
      have hsucc : (limit - count).toNat = (limit - (count + 1)).toNat + 1 := by omega
      rw [iterAux, if_neg hcond, ih limit (count + 1) h0 (by omega) (by omega),
        hsucc, List.take_succ_cons]

lemma iter_user_tweets_pos (l : List α) (limit : Int) (h : 1 ≤ limit) :
    iter_user_tweets l limit = l.take limit.toNat := by
  have := iterAux_take l limit 0 (by omega) (by omega) (by omega)
  simpa [iter_user_tweets] using this

lemma iter_user_tweets_zero (l : List α) : iter_user_tweets l 0 = l := by
  have : ∀ (m : List α) (count : Int), iterAux 0 m count = m := by
    intro m
    induction m with
    | nil => intro count; rfl
    | cons x xs ih => intro count; simp [iterAux, ih]
  exact this l 0

lemma iter_user_tweets_neg (l : List α) (limit : Int) (h : limit < 0) :
    iter_user_tweets l limit = [] := by
  cases l with
  | nil => rfl
  | cons x xs =>
    show iterAux limit (x :: xs) 0 = []
    rw [iterAux, if_pos ⟨by omega, by omega⟩]

/-- Oracles for the external collaborators.  imgFetch tells whether an
HTTP GET of a given URL returns status 200 (download_image, lines 67
to 77, writes the destination file exactly in that case).  vidReport
is the value download_video_with_ytdlp (lines 79 to 103) returns for a
tweet URL: the filename yt_dlp reports, or none on failure.  vidWrites
is the set of paths the yt_dlp invocation actually creates on disk;
the source never compares it with the reported name (the comment on
line 198 calls the recorded path a best guess). -/
structure Env where
  imgFetch : String → Bool
  vidReport : String → Option String
  vidWrites : String → List String

/-- Truthiness-respecting disjunction of two optional strings, the
Python expression getattr(m, "fullUrl", None) or getattr(m, "url",
None) on line 172: an empty string is falsy and falls through. -/
def pyOrStr : Option String → Option String → Option String
  | some s, b => if s = "" then b else some s
  | none, b => b

/-- The remainder of a character list after the first occurrence of a
separator, or none when the separator does not occur. -/
def afterFirst (sep : Char) : List Char → Option (List Char)
  | [] => none
  | c :: cs => if c = sep then some cs else afterFirst sep cs

/-- Split of a character list at every occurrence of a separator. -/
def splitOnChar (sep : Char) : List Char → List (List Char)
  | [] => [[]]
  | c :: cs =>
    if c = sep then [] :: splitOnChar sep cs
    else
      match splitOnChar sep cs with
      | [] => [[c]]
      | h :: t => (c :: h) :: t

/-- The part of a character list before the first occurrence of a
separator (the whole list when the separator does not occur). -/
def untilChar (sep : Char) : List Char → List Char
  | [] => []
  | c :: cs => if c = sep then [] else c :: untilChar sep cs

/-- The final path component of a URL, Path(url).name on line 175:
split on slashes and keep the last nonempty component. -/
def urlBasename (url : String) : String :=
  String.mk (((splitOnChar '/' url.data).filter (fun s => s ≠ [])).foldl (fun _ x => x) [])

/-- Substring test, the Python expression "name=" in url on line 181. -/
def isSubList [BEq α] : List α → List α → Bool
  | n, [] => n.isEmpty
  | n, c :: cs => n.isPrefixOf (c :: cs) || isSubList n cs

/-- containsSub hay needle decides whether needle occurs contiguously
inside hay. -/
def containsSub (hay needle : String) : Bool :=
  isSubList needle.data hay.data

def imagesDirOf (username : String) : String :=
  "downloads/" ++ username ++ "/images"

def videosDirOf (username : String) : String :=
  "downloads/" ++ username ++ "/videos"

/-- The canonical tweet URL built on line 151. -/
def tweetUrlOf (username : String) (tid : Int) : String :=
  "https://x.com/" ++ username ++ "/status/" ++ toString tid

/-- The sequence of image fetch attempts made for a photo URL whose
destination file does not yet exist (lines 178 to 186): one attempt
always; if it fails and the substring "name=" does not occur in the
URL, one retry with "?name=orig" appended. -/
def imageFetchAttempts (imgFetch : String → Bool) (url : String) : List String :=
  if imgFetch url then [url]
  else if containsSub url "name=" then [url]
  else [url, url ++ "?name=orig"]

/-- The disk contents after the download step of one photo (lines 177
to 186): nothing happens when the destination already exists;
otherwise the destination appears when the first fetch succeeds, or
when it fails, the substring "name=" is absent and the retry with
"?name=orig" appended succeeds. -/
def photoDisk (env : Env) (disk : List String) (dest url : String) : List String :=
  if dest ∈ disk then disk
  else if env.imgFetch url then dest :: disk
  else if containsSub url "name=" then disk
  else if env.imgFetch (url ++ "?name=orig") then dest :: disk
  else disk

/-- The sanitized destination filename of a photo (line 175), under
the images directory (line 176). -/
def photoDest (username : String) (tid : Int) (url : String) : String :=
  imagesDirOf username ++ "/" ++ safe_filename (toString tid ++ "_" ++ urlBasename url) 150

/-- Processing of one Photo media reference (lines 170 to 188): resolve
the URL (line 172, empty and missing attributes are skipped), download
unless the destination already exists, and append a photo entry
exactly when the destination exists afterwards.  Returns the disk
contents after the step and the optional entry. -/
def processPhoto (env : Env) (username : String) (tid : Int) (disk : List String)
    (fullUrl url0 : Option String) : List String × Option MediaItem :=
  match pyOrStr fullUrl url0 with
  | none => (disk, none)
  | some url =>
    if photoDest username tid url ∈ photoDisk env disk (photoDest username tid url) url then
      (photoDisk env disk (photoDest username tid url) url,
       some ⟨"photo", url, some (photoDest username tid url)⟩)
    else (photoDisk env disk (photoDest username tid url) url, none)

/-- The glob pattern videos_dir/(tid)-*.* of line 193 applied to one
path: the path starts with the videos directory, a slash, the tweet id
and a hyphen, and the rest contains a dot. -/
def globVideoMatch (videosDir : String) (tid : Int) (path : String) : Bool :=
  let pre := videosDir ++ "/" ++ toString tid ++ "-"
  pre.isPrefixOf path && (path.drop pre.length).contains '.'

/-- Processing of one Video or Gif media reference (lines 190 to 201):
if a file for this tweet already exists in the videos directory take
the first match, otherwise invoke yt_dlp on the tweet URL; append an
entry exactly when a path was obtained.  Returns the disk contents
after the step and the optional entry. -/
def processVideo (env : Env) (username : String) (tid : Int) (disk : List String)
    (isVideo : Bool) : List String × Option MediaItem :=
  match disk.filter (globVideoMatch (videosDirOf username) tid) with
  | [] =>
    match env.vidReport (tweetUrlOf username tid) with
    | some p =>
      (env.vidWrites (tweetUrlOf username tid) ++ disk,
       some ⟨if isVideo then "video" else "gif", tweetUrlOf username tid, some p⟩)
    | none => (env.vidWrites (tweetUrlOf username tid) ++ disk, none)
  | p :: _ =>
    (disk, some ⟨if isVideo then "video" else "gif", tweetUrlOf username tid, some p⟩)

/-- Dispatch on the media kind (lines 168 to 201). -/
def processMediaRef (env : Env) (username : String) (tid : Int) (disk : List String) :
    MediaRef → List String × Option MediaItem
  | .photo f u => processPhoto env username tid disk f u
  | .video => processVideo env username tid disk true
  | .gif => processVideo env username tid disk false

/-- The media loop of one post (lines 166 to 201): process the media
references in order, threading the disk, and collect the entries
appended to rec.media. -/
def processMediaList (env : Env) (username : String) (tid : Int) :
    List MediaRef → List String → List String × List MediaItem
  | [], disk => (disk, [])
  | m :: ms, disk =>
    let r1 := processMediaRef env username tid disk m
    let r2 := processMediaList env username tid ms r1.1
    (r2.1, match r1.2 with
           | some i => i :: r2.2
           | none => r2.2)

/-- Construction of the TweetRecord before media handling (lines 152
to 163): missing or falsy optional counters default to 0, a missing
view counter stays None, the media list starts empty. -/
def buildRecord (username : String) (t : Tweet) : TweetRecord :=
  { id := t.id
    url := tweetUrlOf username t.id
    date := t.dateIso
    content := t.rawContent.getD ""
    replyCount := t.replyCount.getD 0
    retweetCount := t.retweetCount.getD 0
    likeCount := t.likeCount.getD 0
    quoteCount := t.quoteCount.getD 0
    viewCount := t.viewCount
    media := [] }

/-- The whole per-post body on a normal run (lines 150 to 203): build
the record, run the media loop, return the new disk contents and the
finished record. -/
def processTweet (env : Env) (username : String) (disk : List String) (t : Tweet) :
    List String × TweetRecord :=
  let r := processMediaList env username t.id t.media disk
  (r.1, { buildRecord username t with media := r.2 })

/-- The fate of the body of one loop iteration: normal completion, an
unexpected exception (line 210), or a KeyboardInterrupt raised inside
the body (line 207). -/
inductive Fate
  | ok
  | err
  | interrupt
  deriving DecidableEq

/-- How the per-post loop stopped. -/
inductive StopReason
  | exhausted
  | interrupted
  | errThreshold
  deriving DecidableEq

/-- The per-post loop (lines 149 to 217).  On a normal iteration the
record is appended and the consecutive-error counter resets to zero;
on an interrupt the loop breaks at once; on an unexpected exception
the counter increments and the loop breaks when it reaches the
threshold, otherwise continues with the next post. -/
def runLoop (env : Env) (username : String) (maxErr : Int) :
    List (Tweet × Fate) → List String → Int → List TweetRecord →
    List TweetRecord × StopReason
  | [], _, _, acc => (acc, .exhausted)
  | (t, .ok) :: rest, disk, _, acc =>
    runLoop env username maxErr rest (processTweet env username disk t).1 0
      (acc ++ [(processTweet env username disk t).2])
  | (_, .interrupt) :: _, _, _, acc => (acc, .interrupted)
  | (_, .err) :: rest, disk, consec, acc =>
    if consec + 1 ≥ maxErr then (acc, .errThreshold)
    else runLoop env username maxErr rest disk (consec + 1) acc

/-- The records produced when every post in a list completes normally,
threading the disk (the same fold the ok branch of runLoop performs). -/
def processAll (env : Env) (username : String) (disk : List String) :
    List Tweet → List String × List TweetRecord
  | [] => (disk, [])
  | t :: ts =>
    let r1 := processTweet env username disk t
    let r2 := processAll env username r1.1 ts
    (r2.1, r1.2 :: r2.2)

/-- JSON values, the target of json.dump and json.dumps. -/
inductive Json
  | null
  | num (n : Int)
  | str (s : String)
  | arr (elems : List Json)
  | obj (fields : List (String × Json))

def optStrJson : Option String → Json
  | some s => .str s
  | none => .null

def optIntJson : Option Int → Json
  | some n => .num n
  | none => .null

/-- asdict of a MediaItem (line 222): every dataclass field appears,
None serializing as null. -/
def mediaItemToJson (m : MediaItem) : Json :=
  .obj [("type", .str m.type), ("url", .str m.url),
        ("local_path", optStrJson m.local_path)]

/-- asdict of a TweetRecord (lines 220 to 223): every dataclass field
appears in declaration order, None serializing as null. -/
def recordToJson (r : TweetRecord) : Json :=
  .obj [("id", .num r.id), ("url", .str r.url), ("date", .str r.date),
        ("content", .str r.content), ("replyCount", .num r.replyCount),
        ("retweetCount", .num r.retweetCount), ("likeCount", .num r.likeCount),
        ("quoteCount", .num r.quoteCount), ("viewCount", optIntJson r.viewCount),
        ("media", .arr (r.media.map mediaItemToJson))]

/-- Lookup of a key in a JSON object. -/
def objGet (j : Json) (k : String) : Option Json :=
  match j with
  | .obj fields => (fields.find? (fun p => p.1 == k)).map (fun p => p.2)
  | _ => none

/-- A parse of the array-form file recovers the list of serialized
records it contains. -/
def parseArrayFile : Json → Option (List Json)
  | .arr l => some l
  | _ => none

/-- What main leaves behind (lines 219 to 232): the array-form .json
file, the line-delimited .jsonl file (one serialized record per line,
same order), the in-memory records, and how the loop stopped. -/
structure Output where
  jsonFile : Json
  jsonlFile : List Json
  records : List TweetRecord
  stop : StopReason

/-- main from the start of the loop onwards (lines 145 to 232): run
the loop with the consecutive-error counter at zero and no records,
then serialize the accumulated records to both files. -/
def mainRun (env : Env) (username : String) (maxErr : Int) (disk : List String)
    (steps : List (Tweet × Fate)) : Output :=
  { jsonFile := Json.arr ((runLoop env username maxErr steps disk 0 []).1.map recordToJson)
    jsonlFile := (runLoop env username maxErr steps disk 0 []).1.map recordToJson
    records := (runLoop env username maxErr steps disk 0 []).1
    stop := (runLoop env username maxErr steps disk 0 []).2 }

lemma runLoop_oks (env : Env) (username : String) (maxErr : Int) :
    ∀ (goods : List Tweet) (rest : List (Tweet × Fate)) (disk : List String)
      (acc : List TweetRecord),
    runLoop env username maxErr (goods.map (fun t => (t, Fate.ok)) ++ rest) disk 0 acc =
      runLoop env username maxErr rest (processAll env username disk goods).1 0
        (acc ++ (processAll env username disk goods).2) := by
  intro goods
  induction goods with
  | nil => intro rest disk acc; simp [processAll]
  | cons t ts ih =>
    intro rest disk acc
    simp only [List.map_cons, List.cons_append, runLoop, processAll, List.append_eq]
    rw [ih rest (processTweet env username disk t).1 (acc ++ [(processTweet env username disk t).2])]
    simp

lemma runLoop_errs_stop (env : Env) (username : String) (maxErr : Int) :
    ∀ (errs : List Tweet) (rest : List (Tweet × Fate)) (disk : List String)
      (acc : List TweetRecord) (consec : Int),
    errs ≠ [] → consec + errs.length = maxErr →
    runLoop env username maxErr (errs.map (fun t => (t, Fate.err)) ++ rest) disk consec acc =
      (acc, StopReason.errThreshold) := by
  intro errs
  induction errs with
  | nil => intro _ _ _ _ h _; exact absurd rfl h
  | cons e es ih =>
    intro rest disk acc consec _ hlen
    cases es with
    | nil =>
      have : consec + 1 ≥ maxErr := by simp at hlen; omega
      simp [runLoop, this]
    | cons e2 es2 =>
      have hlt : ¬ consec + 1 ≥ maxErr := by
        simp [List.length_cons] at hlen; omega
      simp only [List.map_cons, List.cons_append, runLoop, if_neg hlt]
      exact ih rest disk acc (consec + 1) (by simp) (by simp [List.length_cons] at hlen ⊢; omega)

lemma runLoop_length (env : Env) (username : String) (maxErr : Int) :
    ∀ (steps : List (Tweet × Fate)) (disk : List String) (consec : Int)
      (acc : List TweetRecord),
    (runLoop env username maxErr steps disk consec acc).1.length ≤ acc.length + steps.length := by
  intro steps
  induction steps with
  | nil => intro disk consec acc; simp [runLoop]
  | cons s rest ih =>
    intro disk consec acc
    obtain ⟨t, f⟩ := s
    cases f with
    | ok =>
      have := ih (processTweet env username disk t).1 0
        (acc ++ [(processTweet env username disk t).2])
      simp only [runLoop]
      simp at this ⊢
      omega
    | interrupt => simp [runLoop]
    | err =>
      by_cases h : consec + 1 ≥ maxErr
      · simp [runLoop, h]
      · have := ih disk (consec + 1) acc
        simp [runLoop, h]
        omega

/-- C1: with a consecutive-error threshold K of at least one, after a
prefix of posts that complete normally, K posts in a row that raise an
unexpected failure stop the loop with the threshold reason; whatever
follows is never processed, and both output files hold exactly the
records of the successful prefix. -/
theorem C1_error_budget_stop (env : Env) (username : String) (disk : List String)
    (goods errs : List Tweet) (rest : List (Tweet × Fate)) (K : Int)
    (hK : 1 ≤ K) (hlen : (errs.length : Int) = K) :
    mainRun env username K disk
        (goods.map (fun t => (t, Fate.ok)) ++ errs.map (fun t => (t, Fate.err)) ++ rest) =
      { jsonFile := Json.arr ((processAll env username disk goods).2.map recordToJson)
        jsonlFile := (processAll env username disk goods).2.map recordToJson
        records := (processAll env username disk goods).2
        stop := StopReason.errThreshold } := by
  have hne : errs ≠ [] := by
    cases errs with
    | nil => simp at hlen; omega
    | cons a b => simp
  unfold mainRun
  rw [List.append_assoc, runLoop_oks, runLoop_errs_stop env username K errs rest
    (processAll env username disk goods).1
    ([] ++ (processAll env username disk goods).2) 0 hne (by omega)]
  simp

/-- Witness for C1 at a concrete run: one successful post, then one
failing post with threshold one, then a further post that is never
reached. -/
theorem C1_error_budget_stop_witness :
    mainRun ⟨fun _ => false, fun _ => none, fun _ => []⟩ "u" 1 []
        ([⟨1, "2024-01-01", some "a", none, none, none, none, none, []⟩].map
            (fun t => (t, Fate.ok)) ++
          [⟨2, "2024-01-02", some "b", none, none, none, none, none, []⟩].map
            (fun t => (t, Fate.err)) ++
          [(⟨3, "2024-01-03", some "c", none, none, none, none, none, []⟩, Fate.ok)]) =
      { jsonFile := Json.arr ((processAll ⟨fun _ => false, fun _ => none, fun _ => []⟩ "u" []
          [⟨1, "2024-01-01", some "a", none, none, none, none, none, []⟩]).2.map recordToJson)
        jsonlFile := (processAll ⟨fun _ => false, fun _ => none, fun _ => []⟩ "u" []
          [⟨1, "2024-01-01", some "a", none, none, none, none, none, []⟩]).2.map recordToJson
        records := (processAll ⟨fun _ => false, fun _ => none, fun _ => []⟩ "u" []
          [⟨1, "2024-01-01", some "a", none, none, none, none, none, []⟩]).2
        stop := StopReason.errThreshold } :=
  C1_error_budget_stop ⟨fun _ => false, fun _ => none, fun _ => []⟩ "u" []
    [⟨1, "2024-01-01", some "a", none, none, none, none, none, []⟩]
    [⟨2, "2024-01-02", some "b", none, none, none, none, none, []⟩]
    [(⟨3, "2024-01-03", some "c", none, none, none, none, none, []⟩, Fate.ok)] 1
    (by decide) (by decide)

/-- C2: however the loop terminates (source exhausted, interrupt, or
error threshold; a reached count limit exhausts the iterated list),
both persistence files are produced and hold the serialization of the
accumulated records. -/
theorem C2_always_persists (env : Env) (username : String) (K : Int) (disk : List String)
    (steps : List (Tweet × Fate)) :
    ((mainRun env username K disk steps).stop = StopReason.exhausted ∨
      (mainRun env username K disk steps).stop = StopReason.interrupted ∨
      (mainRun env username K disk steps).stop = StopReason.errThreshold) ∧
    (mainRun env username K disk steps).jsonFile =
      Json.arr ((mainRun env username K disk steps).records.map recordToJson) ∧
    (mainRun env username K disk steps).jsonlFile =
      (mainRun env username K disk steps).records.map recordToJson := by
  refine ⟨?_, rfl, rfl⟩
  cases h : (runLoop env username K steps disk 0 []).2 with
  | exhausted => exact Or.inl (by simp [mainRun, h])
  | interrupted => exact Or.inr (Or.inl (by simp [mainRun, h]))
  | errThreshold => exact Or.inr (Or.inr (by simp [mainRun, h]))

/-- C3: an interrupt raised in the body while processing post M, after
a prefix of posts that completed normally, stops the loop at once with
the interrupted reason; the records (and hence both files) are exactly
those of the successful prefix, the partially built record of post M
is discarded, and whatever follows is never processed. -/
theorem C3_interrupt_keeps_prefix (env : Env) (username : String) (K : Int)
    (disk : List String) (goods : List Tweet) (tM : Tweet)
    (rest : List (Tweet × Fate)) :
    mainRun env username K disk
        (goods.map (fun t => (t, Fate.ok)) ++ (tM, Fate.interrupt) :: rest) =
      { jsonFile := Json.arr ((processAll env username disk goods).2.map recordToJson)
        jsonlFile := (processAll env username disk goods).2.map recordToJson
        records := (processAll env username disk goods).2
        stop := StopReason.interrupted } := by
  unfold mainRun
  rw [runLoop_oks]
  simp [runLoop]

/-- C7: the array-form file parses to exactly the sequence of objects
the line-delimited file consists of, in the same order, and both are
the serialization of the accumulated records. -/
theorem C7_array_jsonl_agree (env : Env) (username : String) (K : Int) (disk : List String)
    (steps : List (Tweet × Fate)) :
    parseArrayFile (mainRun env username K disk steps).jsonFile =
      some ((mainRun env username K disk steps).jsonlFile) ∧
    (mainRun env username K disk steps).jsonlFile =
      (mainRun env username K disk steps).records.map recordToJson :=
  ⟨rfl, rfl⟩

/-- C6: with a post-count limit N of at least one, the iterator yields
exactly the first N posts of the stream in order, so the run processes
only those and accumulates at most N records; a limit of zero yields
the whole stream. -/
theorem C6_limit_bounds (env : Env) (username : String) (K : Int) (disk : List String)
    (steps : List (Tweet × Fate)) (N : Int) (hN : 1 ≤ N) :
    iter_user_tweets steps N = steps.take N.toNat ∧
    (mainRun env username K disk (iter_user_tweets steps N)).records.length ≤ N.toNat ∧
    mainRun env username K disk (iter_user_tweets steps N) =
      mainRun env username K disk (steps.take N.toNat) ∧
    iter_user_tweets steps (0 : Int) = steps := by
  have h1 := iter_user_tweets_pos steps N hN
  refine ⟨h1, ?_, by rw [h1], iter_user_tweets_zero steps⟩
  have h2 := runLoop_length env username K (iter_user_tweets steps N) disk 0 []
  have h3 : (iter_user_tweets steps N).length ≤ N.toNat := by
    rw [h1]; simp [List.length_take]
  simp only [mainRun]
  simp at h2
  omega

/-- Witness for C6: a limit of two on a three-post stream yields the
first two posts. -/
theorem C6_limit_bounds_witness :
    iter_user_tweets
        [((⟨1, "d", none, none, none, none, none, none, []⟩ : Tweet), Fate.ok),
         ((⟨2, "d", none, none, none, none, none, none, []⟩ : Tweet), Fate.ok),
         ((⟨3, "d", none, none, none, none, none, none, []⟩ : Tweet), Fate.ok)] (2 : Int) =
      [((⟨1, "d", none, none, none, none, none, none, []⟩ : Tweet), Fate.ok),
       ((⟨2, "d", none, none, none, none, none, none, []⟩ : Tweet), Fate.ok)] :=
  ((C6_limit_bounds ⟨fun _ => false, fun _ => none, fun _ => []⟩ "u" 50 []
      [((⟨1, "d", none, none, none, none, none, none, []⟩ : Tweet), Fate.ok),
       ((⟨2, "d", none, none, none, none, none, none, []⟩ : Tweet), Fate.ok),
       ((⟨3, "d", none, none, none, none, none, none, []⟩ : Tweet), Fate.ok)] 2
      (by decide)).1).trans (by rfl)

/-- C10: a negative post-count limit makes the iterator yield nothing
at all, so the run processes zero posts and both output files hold
zero records. -/
theorem C10_negative_limit (env : Env) (username : String) (K : Int) (disk : List String)
    (steps : List (Tweet × Fate)) (N : Int) (hN : N < 0) :
    iter_user_tweets steps N = [] ∧
    (mainRun env username K disk (iter_user_tweets steps N)).records = [] ∧
    (mainRun env username K disk (iter_user_tweets steps N)).jsonFile = Json.arr [] ∧
    (mainRun env username K disk (iter_user_tweets steps N)).jsonlFile = [] := by
  have h1 := iter_user_tweets_neg steps N hN
  rw [h1]
  exact ⟨rfl, rfl, rfl, rfl⟩

/-- Witness for C10: a limit of minus one on a one-post stream yields
no posts. -/
theorem C10_negative_limit_witness :
    iter_user_tweets
        [((⟨1, "d", none, none, none, none, none, none, []⟩ : Tweet), Fate.ok)]
        (-1 : Int) = [] :=
  (C10_negative_limit ⟨fun _ => false, fun _ => none, fun _ => []⟩ "u" 50 []
    [((⟨1, "d", none, none, none, none, none, none, []⟩ : Tweet), Fate.ok)]
    (-1) (by decide)).1

/-- Modelled from the words of the claim for comparison in C4: the URL
has a query parameter named pname when, in the part after the first
question mark, some ampersand-separated component has pname before its
equals sign (or is exactly pname). -/
def hasQueryParamNamed (pname : String) (url : String) : Bool :=
  match afterFirst '?' url.data with
  | none => false
  | some query =>
    (splitOnChar '&' query).any fun comp => untilChar '=' comp == pname.data

/-- Counterexample for C4: this URL has no query parameter named name
(its only parameter is called filename), yet the code makes no retry,
because the test on line 181 is a plain substring test and "name=" does
occur inside "filename=abc". -/
theorem C4_counterexample :
    ¬ (hasQueryParamNamed "name" "https://pbs.example.com/media/photo.jpg?filename=abc" = false →
        imageFetchAttempts (fun _ => false) "https://pbs.example.com/media/photo.jpg?filename=abc" =
          ["https://pbs.example.com/media/photo.jpg?filename=abc",
           "https://pbs.example.com/media/photo.jpg?filename=abc" ++ "?name=orig"]) := by
  intro h
  have h2 := h (by decide)
  have h3 : imageFetchAttempts (fun _ => false)
      "https://pbs.example.com/media/photo.jpg?filename=abc" =
      ["https://pbs.example.com/media/photo.jpg?filename=abc"] := by decide
  rw [h3] at h2
  simp at h2

/-- C4 amended: when the first fetch of an image URL fails, the code
retries exactly once with "?name=orig" appended if and only if the
five-character substring "name=" occurs nowhere in the URL; when the
first fetch succeeds, or the substring occurs, no retry is made. -/
theorem C4_retry_on_substring (fetch : String → Bool) (url : String) :
    (fetch url = true → imageFetchAttempts fetch url = [url]) ∧
    (fetch url = false → containsSub url "name=" = true →
      imageFetchAttempts fetch url = [url]) ∧
    (fetch url = false → containsSub url "name=" = false →
      imageFetchAttempts fetch url = [url, url ++ "?name=orig"]) :=
  ⟨fun h => by simp [imageFetchAttempts, h],
   fun h hs => by simp [imageFetchAttempts, h, hs],
   fun h hs => by simp [imageFetchAttempts, h, hs]⟩

/-- Witness for the amended C4: on a URL free of the substring, a
failing first fetch leads to exactly the original attempt and the
name=orig retry. -/
theorem C4_retry_on_substring_witness :
    imageFetchAttempts (fun _ => false) "http://h/a.jpg" =
      ["http://h/a.jpg", "http://h/a.jpg" ++ "?name=orig"] :=
  (C4_retry_on_substring (fun _ => false) "http://h/a.jpg").2.2 rfl (by decide)

/-- Soundness of one appended media entry with respect to a disk
state: a photo entry carries a path present on disk; a video or gif
entry carries a path present on disk or positively reported by the
fetcher for the tweet URL (the source records the reported path
without checking the disk). -/
def entryOk (env : Env) (username : String) (tid : Int) (disk : List String)
    (mi : MediaItem) : Prop :=
  (mi.type = "photo" → ∃ p, mi.local_path = some p ∧ p ∈ disk) ∧
  (mi.type = "video" ∨ mi.type = "gif" →
    ∃ p, mi.local_path = some p ∧
      (p ∈ disk ∨ env.vidReport (tweetUrlOf username tid) = some p))

lemma entryOk_mono (env : Env) (username : String) (tid : Int)
    {disk disk2 : List String} (h : disk ⊆ disk2) {mi : MediaItem} :
    entryOk env username tid disk mi → entryOk env username tid disk2 mi := by
  rintro ⟨h1, h2⟩
  refine ⟨fun ht => ?_, fun ht => ?_⟩
  · obtain ⟨p, hp1, hp2⟩ := h1 ht
    exact ⟨p, hp1, h hp2⟩
  · obtain ⟨p, hp1, hp2⟩ := h2 ht
    rcases hp2 with hp2 | hp2
    · exact ⟨p, hp1, Or.inl (h hp2)⟩
    · exact ⟨p, hp1, Or.inr hp2⟩

lemma photoDisk_subset (env : Env) (disk : List String) (dest url : String) :
    disk ⊆ photoDisk env disk dest url := by
  unfold photoDisk
  repeat' split
  all_goals first
    | exact List.Subset.refl _
    | exact List.subset_cons_self _ _

lemma processPhoto_sound (env : Env) (username : String) (tid : Int) (disk : List String)
    (fullUrl url0 : Option String) :
    disk ⊆ (processPhoto env username tid disk fullUrl url0).1 ∧
    ∀ mi, (processPhoto env username tid disk fullUrl url0).2 = some mi →
      entryOk env username tid (processPhoto env username tid disk fullUrl url0).1 mi := by
  cases hu : pyOrStr fullUrl url0 with
  | none =>
    simp only [processPhoto, hu]
    exact ⟨List.Subset.refl _, fun mi h => by cases h⟩
  | some url =>
    simp only [processPhoto, hu]
    split
    · rename_i hmem
      refine ⟨photoDisk_subset env disk _ url, fun mi hmi => ?_⟩
      cases hmi
      exact ⟨fun _ => ⟨photoDest username tid url, rfl, hmem⟩,
             fun ht => by rcases ht with ht | ht <;> simp at ht⟩
    · exact ⟨photoDisk_subset env disk _ url, fun mi hmi => by cases hmi⟩

lemma processVideo_sound (env : Env) (username : String) (tid : Int) (disk : List String)
    (isVideo : Bool) :
    disk ⊆ (processVideo env username tid disk isVideo).1 ∧
    ∀ mi, (processVideo env username tid disk isVideo).2 = some mi →
      entryOk env username tid (processVideo env username tid disk isVideo).1 mi := by
  cases hf : disk.filter (globVideoMatch (videosDirOf username) tid) with
  | nil =>
    cases hp : env.vidReport (tweetUrlOf username tid) with
    | none =>
      simp only [processVideo, hf, hp]
      exact ⟨List.subset_append_right _ _, fun mi hmi => by cases hmi⟩
    | some p =>
      simp only [processVideo, hf, hp]
      refine ⟨List.subset_append_right _ _, fun mi hmi => ?_⟩
      cases hmi
      constructor
      · intro ht
        cases isVideo <;> simp at ht
      · exact fun _ => ⟨p, rfl, Or.inr hp⟩
  | cons p ps =>
    simp only [processVideo, hf]
    refine ⟨List.Subset.refl _, fun mi hmi => ?_⟩
    cases hmi
    constructor
    · intro ht
      cases isVideo <;> simp at ht
    · intro _
      refine ⟨p, rfl, Or.inl ?_⟩
      have hpf : p ∈ disk.filter (globVideoMatch (videosDirOf username) tid) := by
        rw [hf]; exact List.mem_cons_self _ _
      exact List.mem_of_mem_filter hpf

lemma processMediaRef_sound (env : Env) (username : String) (tid : Int) (disk : List String)
    (m : MediaRef) :
    disk ⊆ (processMediaRef env username tid disk m).1 ∧
    ∀ mi, (processMediaRef env username tid disk m).2 = some mi →
      entryOk env username tid (processMediaRef env username tid disk m).1 mi := by
  cases m with
  | photo f u => exact processPhoto_sound env username tid disk f u
  | video => exact processVideo_sound env username tid disk true
  | gif => exact processVideo_sound env username tid disk false

lemma processMediaList_cons (env : Env) (username : String) (tid : Int) (m : MediaRef)
    (ms : List MediaRef) (disk : List String) :
    processMediaList env username tid (m :: ms) disk =
      ((processMediaList env username tid ms (processMediaRef env username tid disk m).1).1,
       match (processMediaRef env username tid disk m).2 with
       | some i =>
         i :: (processMediaList env username tid ms (processMediaRef env username tid disk m).1).2
       | none =>
         (processMediaList env username tid ms (processMediaRef env username tid disk m).1).2) :=
  rfl

lemma processMediaList_sound (env : Env) (username : String) (tid : Int) :
    ∀ (refs : List MediaRef) (disk : List String),
    disk ⊆ (processMediaList env username tid refs disk).1 ∧
    (processMediaList env username tid refs disk).2.length ≤ refs.length ∧
    ∀ mi ∈ (processMediaList env username tid refs disk).2,
      entryOk env username tid (processMediaList env username tid refs disk).1 mi := by
  intro refs
  induction refs with
  | nil =>
    intro disk
    exact ⟨List.Subset.refl _, by simp [processMediaList], by simp [processMediaList]⟩
  | cons m ms ih =>
    intro disk
    obtain ⟨hsub1, hmi1⟩ := processMediaRef_sound env username tid disk m
    obtain ⟨hsub2, hlen2, hmem2⟩ := ih (processMediaRef env username tid disk m).1
    rw [processMediaList_cons]
    refine ⟨hsub1.trans hsub2, ?_, ?_⟩
    · cases h : (processMediaRef env username tid disk m).2 with
      | none => simp only [h, List.length_cons]; omega
      | some i => simp only [h, List.length_cons]; omega
    · intro mi hmi
      cases h : (processMediaRef env username tid disk m).2 with
      | none =>
        rw [h] at hmi
        exact hmem2 mi hmi
      | some i =>
        rw [h] at hmi
        rcases List.mem_cons.mp hmi with rfl | hmi2
        · exact entryOk_mono env username tid hsub2 (hmi1 mi h)
        · exact hmem2 mi hmi2

lemma processMediaList_append (env : Env) (username : String) (tid : Int) :
    ∀ (l1 l2 : List MediaRef) (disk : List String),
    processMediaList env username tid (l1 ++ l2) disk =
      ((processMediaList env username tid l2 (processMediaList env username tid l1 disk).1).1,
       (processMediaList env username tid l1 disk).2 ++
         (processMediaList env username tid l2 (processMediaList env username tid l1 disk).1).2) := by
  intro l1
  induction l1 with
  | nil => intro l2 disk; simp [processMediaList]
  | cons m ms ih =>
    intro l2 disk
    rw [List.cons_append, processMediaList_cons, processMediaList_cons, ih]
    cases h : (processMediaRef env username tid disk m).2 <;> simp [h]

lemma processTweet_eq (env : Env) (username : String) (disk : List String) (t : Tweet) :
    processTweet env username disk t =
      ((processMediaList env username t.id t.media disk).1,
       { buildRecord username t with
           media := (processMediaList env username t.id t.media disk).2 }) :=
  rfl

/-- C8 amended: each media reference of a post contributes at most one
entry to the record (so the media list is no longer than the media
reference list); every photo entry carries a local path present on
disk after the post is processed; every video or gif entry carries
either a path already present on disk or the path the fetcher reported
for the tweet URL, which the source records without confirming it on
disk; and entries are never removed: the entries accumulated after any
prefix of the media references form a prefix of the final media
list. -/
theorem C8_media_entries_sound (env : Env) (username : String) (disk : List String)
    (t : Tweet) :
    (processTweet env username disk t).2.media.length ≤ t.media.length ∧
    (∀ mi ∈ (processTweet env username disk t).2.media,
      (mi.type = "photo" → ∃ p, mi.local_path = some p ∧
        p ∈ (processTweet env username disk t).1) ∧
      (mi.type = "video" ∨ mi.type = "gif" →
        ∃ p, mi.local_path = some p ∧
          (p ∈ (processTweet env username disk t).1 ∨
            env.vidReport (tweetUrlOf username t.id) = some p))) ∧
    (∀ l1 l2 : List MediaRef, t.media = l1 ++ l2 →
      (processMediaList env username t.id l1 disk).2 <+:
        (processTweet env username disk t).2.media) := by
  obtain ⟨hsub, hlen, hmem⟩ := processMediaList_sound env username t.id t.media disk
  refine ⟨hlen, fun mi hmi => hmem mi hmi, fun l1 l2 hsplit => ?_⟩
  rw [processTweet_eq]
  show (processMediaList env username t.id l1 disk).2 <+:
    (processMediaList env username t.id t.media disk).2
  rw [hsplit, processMediaList_append]
  exact ⟨(processMediaList env username t.id l2
    (processMediaList env username t.id l1 disk).1).2, rfl⟩

/-- An environment in which every image fetch fails and yt_dlp reports
a final filename for every tweet URL while writing nothing to disk
(for example because the reported template name differs from the name
of the file actually produced, or the download failed after the
filename was computed; the source comment on line 198 calls the
recorded path a best guess). -/
def envC8 : Env :=
  ⟨fun _ => false, fun _ => some "downloads/u/videos/7-abc.mp4", fun _ => []⟩

/-- A post carrying one video media reference. -/
def tVid : Tweet :=
  ⟨7, "2024-01-01", some "v", none, none, none, none, none, [MediaRef.video]⟩

/-- Counterexample for C8: with an empty videos directory and a fetcher
that reports a filename without producing the file, the record gains a
video entry whose local path is absent from the disk at the time it is
added (and ever after), so not every entry corresponds to a media file
confirmed present on disk. -/
theorem C8_counterexample :
    (processTweet envC8 "u" [] tVid).2.media =
      [⟨"video", "https://x.com/u/status/7", some "downloads/u/videos/7-abc.mp4"⟩] ∧
    (processTweet envC8 "u" [] tVid).1 = [] := by
  constructor <;> rfl

/-- An environment in which every image fetch succeeds. -/
def envPhotoOk : Env := ⟨fun _ => true, fun _ => none, fun _ => []⟩

/-- A post carrying one photo media reference. -/
def tPhoto : Tweet :=
  ⟨3, "2024-01-01", some "p", none, none, none, none, none,
   [MediaRef.photo (some "http://h/img.jpg") none]⟩

/-- Witness for the amended C8: a successfully fetched photo entry
carries a path present on disk after processing. -/
theorem C8_media_entries_sound_witness :
    ∃ p, (⟨"photo", "http://h/img.jpg", some "downloads/u/images/3_img.jpg"⟩ :
        MediaItem).local_path = some p ∧
      p ∈ (processTweet envPhotoOk "u" [] tPhoto).1 :=
  ((C8_media_entries_sound envPhotoOk "u" [] tPhoto).2.1
      ⟨"photo", "http://h/img.jpg", some "downloads/u/images/3_img.jpg"⟩ (by decide)).1 rfl

lemma objGet_viewCount (r : TweetRecord) :
    objGet (recordToJson r) "viewCount" = some (optIntJson r.viewCount) := rfl

lemma objGet_replyCount (r : TweetRecord) :
    objGet (recordToJson r) "replyCount" = some (Json.num r.replyCount) := rfl

lemma objGet_retweetCount (r : TweetRecord) :
    objGet (recordToJson r) "retweetCount" = some (Json.num r.retweetCount) := rfl

lemma objGet_likeCount (r : TweetRecord) :
    objGet (recordToJson r) "likeCount" = some (Json.num r.likeCount) := rfl

lemma objGet_quoteCount (r : TweetRecord) :
    objGet (recordToJson r) "quoteCount" = some (Json.num r.quoteCount) := rfl

/-- C9 amended: in every serialized record the viewCount key is always
present, bound to an integer when the source post had a view counter
and to null when it was missing (asdict keeps the None field and
json.dump writes it as null, not as an absent key); the four other
counters are always bound to integers, defaulting to 0 when the
counter was missing from the source post. -/
theorem C9_counter_fields (env : Env) (username : String) (disk : List String) (t : Tweet) :
    (objGet (recordToJson (processTweet env username disk t).2) "viewCount" =
        some Json.null ∨
      ∃ n : Int, objGet (recordToJson (processTweet env username disk t).2) "viewCount" =
        some (Json.num n)) ∧
    (t.viewCount = none →
      objGet (recordToJson (processTweet env username disk t).2) "viewCount" =
        some Json.null) ∧
    (∀ n : Int, t.viewCount = some n →
      objGet (recordToJson (processTweet env username disk t).2) "viewCount" =
        some (Json.num n)) ∧
    (∃ n : Int, objGet (recordToJson (processTweet env username disk t).2) "replyCount" =
        some (Json.num n) ∧ (t.replyCount = none → n = 0)) ∧
    (∃ n : Int, objGet (recordToJson (processTweet env username disk t).2) "retweetCount" =
        some (Json.num n) ∧ (t.retweetCount = none → n = 0)) ∧
    (∃ n : Int, objGet (recordToJson (processTweet env username disk t).2) "likeCount" =
        some (Json.num n) ∧ (t.likeCount = none → n = 0)) ∧
    (∃ n : Int, objGet (recordToJson (processTweet env username disk t).2) "quoteCount" =
        some (Json.num n) ∧ (t.quoteCount = none → n = 0)) := by
  have hv := objGet_viewCount (processTweet env username disk t).2
  refine ⟨?_, ?_, ?_, ?_, ?_, ?_, ?_⟩
  · cases h : t.viewCount with
    | none =>
      refine Or.inl ?_
      have hview : (processTweet env username disk t).2.viewCount = none := h
      rw [hv, hview]
      rfl
    | some n =>
      refine Or.inr ⟨n, ?_⟩
      have hview : (processTweet env username disk t).2.viewCount = some n := h
      rw [hv, hview]
      rfl
  · intro h
    have hview : (processTweet env username disk t).2.viewCount = none := h
    rw [hv, hview]
    rfl
  · intro n h
    have hview : (processTweet env username disk t).2.viewCount = some n := h
    rw [hv, hview]
    rfl
  · exact ⟨t.replyCount.getD 0, objGet_replyCount _, fun h => by rw [h]; rfl⟩
  · exact ⟨t.retweetCount.getD 0, objGet_retweetCount _, fun h => by rw [h]; rfl⟩
  · exact ⟨t.likeCount.getD 0, objGet_likeCount _, fun h => by rw [h]; rfl⟩
  · exact ⟨t.quoteCount.getD 0, objGet_quoteCount _, fun h => by rw [h]; rfl⟩

/-- An environment in which every fetch fails and nothing is written. -/
def envNone : Env := ⟨fun _ => false, fun _ => none, fun _ => []⟩

/-- A post whose view counter is missing. -/
def tView : Tweet := ⟨5, "2024-01-02", none, none, some 3, none, none, none, []⟩

/-- A post whose view counter is present. -/
def tView2 : Tweet := ⟨6, "2024-01-03", none, none, none, none, none, some 42, []⟩

/-- Counterexample for C9: a post without a view counter serializes to
a record object whose viewCount key is present and bound to null, so
the field is neither an integer nor absent. -/
theorem C9_counterexample :
    ¬ (objGet (recordToJson (processTweet envNone "u" [] tView).2) "viewCount" = none ∨
       ∃ n : Int, objGet (recordToJson (processTweet envNone "u" [] tView).2) "viewCount" =
         some (Json.num n)) := by
  have h : objGet (recordToJson (processTweet envNone "u" [] tView).2) "viewCount" =
      some Json.null := rfl
  rintro (h1 | ⟨n, hn⟩)
  · rw [h] at h1
    exact Option.noConfusion h1
  · rw [h] at hn
    injection hn with h2
    exact Json.noConfusion h2

/-- Witness for the amended C9: the post without a view counter gets a
viewCount key bound to null, and the post with view counter 42 gets a
viewCount key bound to the integer 42. -/
theorem C9_counter_fields_witness :
    objGet (recordToJson (processTweet envNone "u" [] tView).2) "viewCount" =
      some Json.null ∧
    objGet (recordToJson (processTweet envNone "u" [] tView2).2) "viewCount" =
      some (Json.num 42) :=
  ⟨(C9_counter_fields envNone "u" [] tView).2.1 rfl,
   (C9_counter_fields envNone "u" [] tView2).2.2.1 42 rfl⟩

end Scraper
